import Mathlib

/-!
Shallow embedding of the metalsmith-mapsite plugin (src/lib/index.js).

The plugin resolves options into a configuration, filters the build file
set through a glob + private check, derives a URL per file, assembles
sitemap entries (files first, then optional static JSON records), and
stores the serialized XML under the configured output key.

External dependencies are modelled as follows:
- the single-pattern glob matcher (minimatch inside multimatch) is an
  abstract boolean parameter; the multi-pattern negation fold of
  multimatch itself is modelled from the spec;
- JS Date parsing and Date.prototype.toUTCString are modelled as an
  abstract parser returning a timestamp option plus an abstract
  renderer, with unparsable values rendering as the text
  "Invalid Date";
- the sitemap XML serializer is an abstract function of the hostname
  and of the ordered entry list.
JS machine numbers for priority values are modelled as rationals, and
JS truthiness is modelled per type (empty string and 0 are falsy;
absent values are undefined).
-/

/-- JS string endsWith: the suffix check used by the chompRight helper
and by the trailing slash normalization. -/
def jsEndsWith (s suffix : String) : Bool :=
  List.isSuffixOf suffix.data s.data

/-- chompRight helper from the source: drop the suffix from the end of
the input when the input ends with it, otherwise return the input. -/
def chompRight (input suffix : String) : String :=
  if jsEndsWith input suffix then
    String.mk (input.data.take (input.data.length - suffix.data.length))
  else input

/-- The slash package: convert backslash separators to forward slashes,
leaving extended-length Windows paths untouched. -/
def slash (p : String) : String :=
  if List.isPrefixOf ("\\\\?\\".data) p.data then p
  else String.mk (p.data.map (fun c => if c = '\\' then '/' else c))

/-- Node path.basename on a forward-slash path: ignore trailing
separators, then take the part after the last separator. -/
def basename (p : String) : String :=
  let trimmed := (p.data.reverse.dropWhile (fun c => c = '/')).reverse
  String.mk ((trimmed.reverse.takeWhile (fun c => c != '/')).reverse)

/-- Node path.extname: the suffix of the basename starting at its last
dot, empty when there is no dot, when the only dot leads the basename,
or when the basename is a dots-only relative component. -/
def extname (p : String) : String :=
  let b := basename p
  if b = "." ∨ b = ".." then ""
  else
    let rev := b.data.reverse
    let ext := rev.takeWhile (fun c => c != '.')
    if ext.length = rev.length then ""
    else if rev.length - ext.length - 1 = 0 then ""
    else String.mk ('.' :: ext.reverse)

/-- JS x || d for an optional string x and a defined string default:
falsy (absent or empty) picks the default. -/
def jsOrStr (v : Option String) (d : String) : String :=
  match v with
  | some s => if s = "" then d else s
  | none => d

/-- JS x || d for an optional numeric x and a defined numeric default:
falsy (absent or zero) picks the default. -/
def jsOrQ (v : Option ℚ) (d : ℚ) : ℚ :=
  match v with
  | some q => if q = 0 then d else q
  | none => d

/-- JS x || d where both sides may be undefined: a truthy x wins, a
falsy x yields d (which may itself be undefined). -/
def jsOrOpt (v d : Option String) : Option String :=
  match v with
  | some s => if s = "" then d else some s
  | none => d

/-- Frontmatter record of a build file, restricted to the keys the
plugin reads. The private flag stores the truthiness of the private
key; canonical is some only when the value is a string. -/
structure Frontmatter where
  priv : Bool := false
  canonical : Option String := none
  changefreq : Option String := none
  priority : Option ℚ := none
  lastmod : Option String := none
  deriving DecidableEq

/-- One record of the static-URL JSON side file. -/
structure StaticRecord where
  path : Option String := none
  changefreq : Option String := none
  priority : Option ℚ := none
  lastmod : Option String := none
  deriving DecidableEq

/-- Resolved plugin configuration after defaulting. -/
structure Config where
  hostname : String
  changefreq : String
  lastmod : Option String
  omitExtension : Bool
  omitIndex : Bool
  output : String
  pattern : List String
  priority : ℚ
  jsonFile : Option String
  deriving DecidableEq

/-- Raw options object before defaulting; every field optional. -/
structure OptsObj where
  hostname : Option String := none
  changefreq : Option String := none
  lastmod : Option String := none
  omitExtension : Bool := false
  omitIndex : Bool := false
  output : Option String := none
  pattern : Option (List String) := none
  priority : Option ℚ := none
  jsonFile : Option String := none
  deriving DecidableEq

/-- The options argument of the plugin: undefined, a bare hostname
string, or an options object. -/
inductive OptsInput where
  | undef : OptsInput
  | str : String → OptsInput
  | obj : OptsObj → OptsInput
  deriving DecidableEq

/-- Configuration errors thrown at construction time. -/
inductive ConfigError where
  | missingHostname : ConfigError
  | badJsonFile : ConfigError
  deriving DecidableEq

/-- opts = opts || \x7b\x7d followed by the bare-string coercion: a
falsy argument becomes the empty object, a non-empty string becomes an
object carrying it as hostname. -/
def coerceOpts : OptsInput → OptsObj
  | OptsInput.undef => {}
  | OptsInput.str s => if s = "" then {} else { hostname := some s }
  | OptsInput.obj o => o

/-- Defaulting of the option fields onto the resolved configuration,
mirroring the local variable block of the source: changefreq, output
and pattern default through JS falsiness, priority defaults through
isNaN (so an explicit 0 is kept), jsonFile through truthiness. -/
def resolveCfg (o : OptsObj) (h : String) : Config :=
  { hostname := h
    changefreq := jsOrStr o.changefreq "weekly"
    lastmod := o.lastmod
    omitExtension := o.omitExtension
    omitIndex := o.omitIndex
    output := jsOrStr o.output "sitemap.xml"
    pattern := o.pattern.getD ["**/*.html"]
    priority := match o.priority with
      | some q => q
      | none => 1/2
    jsonFile := match o.jsonFile with
      | some j => if j = "" then none else some j
      | none => none }

/-- Construction-time validation on the coerced options object:
require a truthy hostname, and when a truthy jsonFile is given require
extension ".json"; then default the remaining fields. -/
def mkConfigChecked (o : OptsObj) : Except ConfigError Config :=
  match o.hostname with
  | none => Except.error ConfigError.missingHostname
  | some h =>
    if h = "" then Except.error ConfigError.missingHostname
    else match o.jsonFile with
      | some j =>
        if j ≠ "" ∧ extname j ≠ ".json" then Except.error ConfigError.badJsonFile
        else Except.ok (resolveCfg o h)
      | none => Except.ok (resolveCfg o h)

/-- Full configuration resolution: the opts-or-empty and bare-string
coercions followed by validation and defaulting. -/
def mkConfig (i : OptsInput) : Except ConfigError Config :=
  mkConfigChecked (coerceOpts i)

/-- JS truthiness of the head of the multimatch result array: undefined
for an empty array, otherwise the matched path string itself. -/
def jsHeadTruthy (l : List String) : Bool :=
  match l with
  | [] => false
  | s :: _ => s != ""

/-- Modelled from the spec: multimatch over a single file with a list
of shell-style patterns, over an abstract single-pattern matcher m.
Patterns apply in order; a positive pattern that matches selects the
file, a pattern prefixed with an exclamation mark deselects it again
when its remainder matches. -/
def multimatchOne (m : String → String → Bool) (file : String)
    (pats : List String) : Bool :=
  pats.foldl
    (fun acc pat =>
      if pat.startsWith "!" then (if m file (pat.drop 1) then false else acc)
      else (if m file pat then true else acc))
    false

/-- The result array of multimatch for a single candidate file. -/
def multimatchRes (m : String → String → Bool) (file : String)
    (pats : List String) : List String :=
  if multimatchOne m file pats then [file] else []

/-- The check function of the source: process a file only when the
head of the multimatch result is truthy and the frontmatter has no
truthy private flag. -/
def check (m : String → String → Bool) (cfg : Config) (file : String)
    (fm : Frontmatter) : Bool :=
  if jsHeadTruthy (multimatchRes m file cfg.pattern) = false then false
  else if fm.priv then false
  else true

/-- Trailing slash normalization at the end of buildUrl. -/
def addTrailingSlash (r : String) : String :=
  if jsEndsWith r "/" then r else r ++ "/"

/-- First reassignment of r in buildUrl: a string canonical frontmatter
value (the sentinel r is still empty at this point). -/
def step1 (fm : Frontmatter) : String :=
  match fm.canonical with
  | some s => s
  | none => ""

/-- Second reassignment: with omitIndex on and basename index.html,
chomp the textual suffix index.html, guarded by the sentinel. -/
def step2 (cfg : Config) (n r : String) : String :=
  if r = "" ∧ cfg.omitIndex ∧ basename n = "index.html"
  then chompRight n "index.html" else r

/-- Third reassignment: with omitExtension on, chomp the extension
suffix, guarded by the sentinel. -/
def step3 (cfg : Config) (n r : String) : String :=
  if r = "" ∧ cfg.omitExtension then chompRight n (extname n) else r

/-- Final fallback of buildUrl: the normalized file path itself. -/
def step4 (n r : String) : String :=
  if r = "" then n else r

/-- The URL base computed by buildUrl before the trailing slash
normalization: the sequential sentinel cascade of the source. -/
def buildUrlBase (cfg : Config) (file : String) (fm : Frontmatter) : String :=
  step4 (slash file) (step3 cfg (slash file) (step2 cfg (slash file) (step1 fm)))

/-- buildUrl of the source: the cascade plus trailing slash append. -/
def buildUrl (cfg : Config) (file : String) (fm : Frontmatter) : String :=
  addTrailingSlash (buildUrlBase cfg file fm)

/-- JS Date parsing followed by toUTCString, over an abstract parser dp
and renderer dr: an unparsable raw value renders as "Invalid Date". -/
def jsDateToUTC (dp : String → Option Nat) (dr : Nat → String)
    (s : String) : String :=
  match dp s with
  | some t => dr t
  | none => "Invalid Date"

/-- A sitemap entry; option fields record key presence after pickby. -/
structure SitemapEntry where
  changefreq : Option String
  priority : Option ℚ
  lastmod : Option String
  url : String
  deriving DecidableEq

/-- Entry assembly for a build file: the pickby object literal (the
changefreq and priority values are always defined because their
configuration defaults are, so pickby only ever drops lastmod), the
in-place lastmod re-rendering, and the url assignment. -/
def mkFileEntry (dp : String → Option Nat) (dr : Nat → String)
    (cfg : Config) (fm : Frontmatter) (url : String) : SitemapEntry :=
  let entry : SitemapEntry :=
    { changefreq := some (jsOrStr fm.changefreq cfg.changefreq)
      priority := some (jsOrQ fm.priority cfg.priority)
      lastmod := jsOrOpt fm.lastmod cfg.lastmod
      url := "" }
  let entry :=
    match entry.lastmod with
    | some raw => { entry with lastmod := some (jsDateToUTC dp dr raw) }
    | none => entry
  { entry with url := url }

/-- URL of a static record: hostname slash path when the path is
truthy, else the empty string; no trailing slash normalization. -/
def staticUrl (hostname : String) (path : Option String) : String :=
  match path with
  | some p => if p = "" then "" else hostname ++ "/" ++ p
  | none => ""

/-- Entry assembly for a static JSON record, mirroring the duplicated
loop body of the source. -/
def mkStaticEntry (dp : String → Option Nat) (dr : Nat → String)
    (cfg : Config) (r : StaticRecord) : SitemapEntry :=
  let entry : SitemapEntry :=
    { changefreq := some (jsOrStr r.changefreq cfg.changefreq)
      priority := some (jsOrQ r.priority cfg.priority)
      lastmod := jsOrOpt r.lastmod cfg.lastmod
      url := "" }
  let entry :=
    match entry.lastmod with
    | some raw => { entry with lastmod := some (jsDateToUTC dp dr raw) }
    | none => entry
  { entry with url := staticUrl cfg.hostname r.path }

/-- A value of the metalsmith files mapping: either a frontmatter
record of a build file, or the contents object the plugin writes. -/
inductive FileVal where
  | meta : Frontmatter → FileVal
  | contents : String → FileVal
  deriving DecidableEq

/-- Reading frontmatter keys off a file value: a contents-only object
has every recognized key undefined. -/
def fmOf : FileVal → Frontmatter
  | FileVal.meta fm => fm
  | FileVal.contents _ => {}

/-- JS object key assignment on an association list: overwrite in
place when the key exists, else append. -/
def setKey (k : String) (v : FileVal) (files : List (String × FileVal)) :
    List (String × FileVal) :=
  if k ∈ files.map Prod.fst then
    files.map (fun kv => if kv.1 = k then (k, v) else kv)
  else files ++ [(k, v)]

/-- The ordered entry collection of one plugin run: included build
files in iteration order, then, when a jsonFile is configured, the
static records in source order. -/
def entriesOf (dp : String → Option Nat) (dr : Nat → String)
    (m : String → String → Bool) (cfg : Config)
    (files : List (String × FileVal)) (statics : List StaticRecord) :
    List SitemapEntry :=
  (files.filterMap (fun kv =>
    if check m cfg kv.1 (fmOf kv.2) = true
    then some (mkFileEntry dp dr cfg (fmOf kv.2) (buildUrl cfg kv.1 (fmOf kv.2)))
    else none))
  ++ (match cfg.jsonFile with
      | some _ => statics.map (mkStaticEntry dp dr cfg)
      | none => [])

/-- One run of the returned plugin function: collect the entries, then
store the serialized sitemap under the output key. The serializer ser
abstracts sitemap.toString over the hostname and the entry list; the
statics argument abstracts the parsed contents of the JSON side file. -/
def runPlugin (dp : String → Option Nat) (dr : Nat → String)
    (ser : String → List SitemapEntry → String)
    (m : String → String → Bool) (cfg : Config)
    (files : List (String × FileVal)) (statics : List StaticRecord) :
    List (String × FileVal) :=
  setKey cfg.output (FileVal.contents (ser cfg.hostname (entriesOf dp dr m cfg files statics))) files

/-- The plugin constructor: validate and resolve the options, then
return the transformation; a configuration error aborts before any
file is touched. -/
def plugin (dp : String → Option Nat) (dr : Nat → String)
    (ser : String → List SitemapEntry → String)
    (m : String → String → Bool) (i : OptsInput) :
    Except ConfigError (List (String × FileVal) → List StaticRecord → List (String × FileVal)) :=
  (mkConfig i).map (fun cfg => runPlugin dp dr ser m cfg)

/-- A resolved configuration with every default, hostname
http://example.com, used by concrete instances below. -/
def cfgBase : Config :=
  { hostname := "http://example.com"
    changefreq := "weekly"
    lastmod := none
    omitExtension := false
    omitIndex := false
    output := "sitemap.xml"
    pattern := ["**/*.html"]
    priority := 1/2
    jsonFile := none }

/-- Appending a slash yields a string that ends with a slash. -/
theorem jsEndsWith_append_slash (r : String) : jsEndsWith (r ++ "/") "/" = true := by
  unfold jsEndsWith
  rw [String.data_append]
  simp only [List.isSuffixOf_iff_suffix]
  exact List.suffix_append r.data ("/".data)

/-- jsOrOpt is undefined exactly when the first argument is falsy and
the second is undefined. -/
theorem jsOrOpt_eq_none (v d : Option String) :
    jsOrOpt v d = none ↔ (v = none ∨ v = some "") ∧ d = none := by
  cases v with
  | none => simp [jsOrOpt]
  | some s =>
    by_cases hs : s = "" <;> simp [jsOrOpt, hs]

/-- Claim C3: every file-derived sitemap URL ends with a trailing
slash; buildUrl appends one whenever its cascade result does not
already end with one. -/
theorem buildUrl_trailing_slash (cfg : Config) (file : String) (fm : Frontmatter) :
    jsEndsWith (buildUrl cfg file fm) "/" = true := by
  unfold buildUrl addTrailingSlash
  cases hb : jsEndsWith (buildUrlBase cfg file fm) "/" with
  | true => simp [hb]
  | false => simp [hb, jsEndsWith_append_slash]

/-- Claim C1, behavior of the code at the failing input: a frontmatter
priority of 0 is falsy, so the pickby object literal replaces it with
the configured priority, and the emitted entry carries the default 1/2
rather than the explicit 0. -/
theorem priority_zero_frontmatter_overwritten :
    (mkFileEntry (fun _ => none) (fun _ => "") cfgBase
        { priority := some 0 } "blog/a.html/").priority = some (1/2 : ℚ)
    ∧ cfgBase.priority = 1/2 ∧ ((1 : ℚ)/2 : ℚ) ≠ 0 := by
  refine ⟨rfl, rfl, by norm_num⟩

/-- Claim C5, counterexample: a static record whose path key is
present but empty yields the empty URL, not hostname slash path. -/
theorem staticUrl_empty_path_cex :
    (mkStaticEntry (fun _ => none) (fun _ => "") cfgBase { path := some "" }).url = ""
    ∧ ("" : String) ≠ cfgBase.hostname ++ "/" ++ "" := by
  refine ⟨rfl, by decide⟩

/-- Claim C5 as amended: the URL of a static record is hostname slash
path when the path is present and non-empty, and the empty string when
the path is absent or empty; no trailing slash is appended. -/
theorem staticUrl_formula (dp : String → Option Nat) (dr : Nat → String)
    (cfg : Config) (r : StaticRecord) :
    (mkStaticEntry dp dr cfg r).url =
      (match r.path with
       | some p => if p = "" then "" else cfg.hostname ++ "/" ++ p
       | none => "") := by
  cases h : jsOrOpt r.lastmod cfg.lastmod <;> simp [mkStaticEntry, staticUrl, h]

/-- Claim C7: whenever a lastmod value resolves (frontmatter value
when truthy, else the configured default), the emitted lastmod is the
parse-then-render of that raw value, for build files and for static
records alike; a parser that fails renders the text "Invalid Date". -/
theorem lastmod_parse_render (dp : String → Option Nat) (dr : Nat → String)
    (cfg : Config) (fm : Frontmatter) (r : StaticRecord) (url s : String) :
    (mkFileEntry dp dr cfg fm url).lastmod
        = (jsOrOpt fm.lastmod cfg.lastmod).map (jsDateToUTC dp dr)
    ∧ (mkStaticEntry dp dr cfg r).lastmod
        = (jsOrOpt r.lastmod cfg.lastmod).map (jsDateToUTC dp dr)
    ∧ jsDateToUTC (fun _ => none) dr s = "Invalid Date" := by
  refine ⟨?_, ?_, rfl⟩
  · cases h : jsOrOpt fm.lastmod cfg.lastmod <;> simp [mkFileEntry, h]
  · cases h : jsOrOpt r.lastmod cfg.lastmod <;> simp [mkStaticEntry, h]

/-- Claim C10, counterexample: a record lastmod that is present but
empty is falsy, so with no configured default the lastmod key is
dropped even though the record supplied a defined value. -/
theorem entry_lastmod_empty_string_cex :
    (mkFileEntry (fun _ => none) (fun _ => "") cfgBase
        { lastmod := some "" } "x").lastmod = none
    ∧ ({ lastmod := some "" } : Frontmatter).lastmod ≠ none
    ∧ cfgBase.lastmod = none := by
  refine ⟨rfl, by decide, rfl⟩

/-- Claim C10 as amended: every emitted entry carries changefreq and
priority; lastmod is dropped exactly when the record value is absent
or empty and the configuration supplies none. -/
theorem entry_fields_presence (dp : String → Option Nat) (dr : Nat → String)
    (cfg : Config) (fm : Frontmatter) (r : StaticRecord) (url : String) :
    (mkFileEntry dp dr cfg fm url).changefreq.isSome = true
    ∧ (mkFileEntry dp dr cfg fm url).priority.isSome = true
    ∧ (mkStaticEntry dp dr cfg r).changefreq.isSome = true
    ∧ (mkStaticEntry dp dr cfg r).priority.isSome = true
    ∧ ((mkFileEntry dp dr cfg fm url).lastmod = none ↔
        (fm.lastmod = none ∨ fm.lastmod = some "") ∧ cfg.lastmod = none)
    ∧ ((mkStaticEntry dp dr cfg r).lastmod = none ↔
        (r.lastmod = none ∨ r.lastmod = some "") ∧ cfg.lastmod = none) := by
  have hf : ∀ u, (mkFileEntry dp dr cfg fm u).lastmod
      = (jsOrOpt fm.lastmod cfg.lastmod).map (jsDateToUTC dp dr) := by
    intro u
    cases h : jsOrOpt fm.lastmod cfg.lastmod <;> simp [mkFileEntry, h]
  have hs : (mkStaticEntry dp dr cfg r).lastmod
      = (jsOrOpt r.lastmod cfg.lastmod).map (jsDateToUTC dp dr) := by
    cases h : jsOrOpt r.lastmod cfg.lastmod <;> simp [mkStaticEntry, h]
  refine ⟨?_, ?_, ?_, ?_, ?_, ?_⟩
  · cases h : jsOrOpt fm.lastmod cfg.lastmod <;> simp [mkFileEntry, h]
  · cases h : jsOrOpt fm.lastmod cfg.lastmod <;> simp [mkFileEntry, h]
  · cases h : jsOrOpt r.lastmod cfg.lastmod <;> simp [mkStaticEntry, h]
  · cases h : jsOrOpt r.lastmod cfg.lastmod <;> simp [mkStaticEntry, h]
  · rw [hf, Option.map_eq_none']
    exact jsOrOpt_eq_none fm.lastmod cfg.lastmod
  · rw [hs, Option.map_eq_none']
    exact jsOrOpt_eq_none r.lastmod cfg.lastmod

/-- Claim C4: for a non-empty candidate path, the file is processed
exactly when the multi-pattern glob fold (with negation semantics)
selects it and the frontmatter has no truthy private flag. -/
theorem check_iff_match_and_not_private (m : String → String → Bool)
    (cfg : Config) (file : String) (fm : Frontmatter) (h : file ≠ "") :
    check m cfg file fm = true ↔
      (multimatchOne m file cfg.pattern = true ∧ fm.priv = false) := by
  unfold check multimatchRes jsHeadTruthy
  cases hm : multimatchOne m file cfg.pattern <;> cases hp : fm.priv <;>
    simp [hm, hp, h]

/-- Witness for claim C4 at a concrete matcher, path and record. -/
theorem check_iff_match_witness :
    ("a.html" : String) ≠ ""
    ∧ (check (fun f p => f == p) cfgBase "a.html" { priv := false } = true ↔
        (multimatchOne (fun f p => f == p) "a.html" cfgBase.pattern = true
          ∧ ({ priv := false } : Frontmatter).priv = false)) :=
  ⟨by decide, check_iff_match_and_not_private _ _ _ _ (by decide)⟩

/-- Claim C8: a missing or empty hostname (after the bare-string
coercion) makes plugin construction fail with the hostname
configuration error, before any transformation function exists. -/
theorem mkConfig_missing_hostname (dp : String → Option Nat) (dr : Nat → String)
    (ser : String → List SitemapEntry → String) (m : String → String → Bool)
    (i : OptsInput)
    (h : (coerceOpts i).hostname = none ∨ (coerceOpts i).hostname = some "") :
    plugin dp dr ser m i = Except.error ConfigError.missingHostname := by
  unfold plugin mkConfig mkConfigChecked
  rcases h with h | h <;> simp [h, Except.map]

/-- Witness for claim C8 at the undefined options argument. -/
theorem mkConfig_missing_hostname_witness :
    ((coerceOpts OptsInput.undef).hostname = none
      ∨ (coerceOpts OptsInput.undef).hostname = some "")
    ∧ plugin (fun _ => none) (fun _ => "") (fun _ _ => "") (fun _ _ => false)
        OptsInput.undef = Except.error ConfigError.missingHostname :=
  ⟨Or.inl rfl, mkConfig_missing_hostname _ _ _ _ _ (Or.inl rfl)⟩

/-- Claim C9, counterexample: with a valid hostname and a jsonFile
that is present but empty, construction succeeds even though the
extension of the empty string is not ".json" (the source guards the
check with JS truthiness, so an empty jsonFile skips it). -/
theorem mkConfig_empty_jsonFile_cex :
    (mkConfig (OptsInput.obj
        { hostname := some "http://example.com", jsonFile := some "" })).isOk = true
    ∧ extname "" ≠ ".json" := by
  refine ⟨rfl, by decide⟩

/-- Claim C9 as amended: with a truthy hostname, construction fails
with the jsonFile configuration error exactly when jsonFile is present,
non-empty, and its extension is not ".json" (case-sensitively); an
absent or empty jsonFile is never checked. -/
theorem mkConfig_jsonFile_check (o : OptsObj) (h : String)
    (h1 : o.hostname = some h) (h2 : h ≠ "") :
    mkConfig (OptsInput.obj o) = Except.error ConfigError.badJsonFile ↔
      ∃ j, o.jsonFile = some j ∧ j ≠ "" ∧ extname j ≠ ".json" := by
  show mkConfigChecked (coerceOpts (OptsInput.obj o)) = _ ↔ _
  have hco : coerceOpts (OptsInput.obj o) = o := rfl
  rw [hco]
  unfold mkConfigChecked
  rw [h1]
  cases hj : o.jsonFile with
  | none => simp [h2, hj]
  | some j =>
    by_cases hc : j ≠ "" ∧ extname j ≠ ".json" <;> simp [h2, hj, hc]

/-- Witness for claim C9 as amended, at a jsonFile with a txt
extension. -/
theorem mkConfig_jsonFile_check_witness :
    mkConfig (OptsInput.obj
        { hostname := some "http://example.com", jsonFile := some "x.txt" })
      = Except.error ConfigError.badJsonFile ↔
      ∃ j, ({ hostname := some "http://example.com", jsonFile := some "x.txt" }
            : OptsObj).jsonFile = some j ∧ j ≠ "" ∧ extname j ≠ ".json" :=
  mkConfig_jsonFile_check _ "http://example.com" rfl (by decide)

/-- First non-empty candidate in a list, else the default. -/
def firstNonEmpty : List String → String → String
  | [], d => d
  | s :: rest, d => if s = "" then firstNonEmpty rest d else s

/-- The URL builder as the claim C2 amendment describes it: among the
canonical rule, the omitIndex chomp and the omitExtension chomp, the
first rule that applies and produces a non-empty string wins; a rule
whose result is empty falls through; the default is the normalized
path; then the trailing slash is appended. -/
def buildUrlAmended (cfg : Config) (file : String) (fm : Frontmatter) : String :=
  addTrailingSlash (firstNonEmpty
    [step1 fm,
     if cfg.omitIndex ∧ basename (slash file) = "index.html"
       then chompRight (slash file) "index.html" else "",
     if cfg.omitExtension
       then chompRight (slash file) (extname (slash file)) else ""]
    (slash file))

/-- The URL builder as claim C2 literally states it: exactly one of
the four rules applies, in strict precedence order, the first
applicable rule winning regardless of its result. -/
def buildUrlClaimed (cfg : Config) (file : String) (fm : Frontmatter) : String :=
  addTrailingSlash
    (match fm.canonical with
     | some s => s
     | none =>
       if cfg.omitIndex ∧ basename (slash file) = "index.html"
         then chompRight (slash file) "index.html"
       else if cfg.omitExtension
         then chompRight (slash file) (extname (slash file))
       else slash file)

/-- Claim C2, counterexample: for the path index.html with omitIndex
on, the first-applicable-rule reading strips the whole path and yields
the root URL, but the code falls through on the empty chomp result and
emits the unchanged path. -/
theorem buildUrl_first_applicable_cex :
    buildUrl { cfgBase with omitIndex := true } "index.html" {} = "index.html/"
    ∧ buildUrlClaimed { cfgBase with omitIndex := true } "index.html" {} = "/"
    ∧ ("index.html/" : String) ≠ "/" := by
  refine ⟨rfl, rfl, by decide⟩

/-- Claim C2 as amended: the URL builder applies the four rules in
strict precedence where the first rule producing a NON-EMPTY base
wins (an empty result falls through to the later rules), followed by
the trailing slash normalization. -/
theorem buildUrl_first_nonempty_precedence (cfg : Config) (file : String)
    (fm : Frontmatter) :
    buildUrl cfg file fm = buildUrlAmended cfg file fm := by
  unfold buildUrl buildUrlAmended buildUrlBase
  congr 1
  by_cases h1 : step1 fm = "" <;>
  by_cases h2 : cfg.omitIndex ∧ basename (slash file) = "index.html" <;>
  by_cases h3 : cfg.omitExtension = true <;>
  by_cases h4 : chompRight (slash file) "index.html" = "" <;>
  by_cases h5 : chompRight (slash file) (extname (slash file)) = "" <;>
  simp [step2, step3, step4, firstNonEmpty, h1, h2, h3, h4, h5]

/-- Looking up a key appended at the end of an association list whose
earlier keys all differ from it. -/
theorem lookup_append_not_mem (k : String) (v : FileVal)
    (l : List (String × FileVal)) (h : k ∉ l.map Prod.fst) :
    List.lookup k (l ++ [(k, v)]) = some v := by
  induction l with
  | nil => simp [List.lookup]
  | cons a t ih =>
    obtain ⟨a1, a2⟩ := a
    simp only [List.map_cons, List.mem_cons, not_or] at h
    obtain ⟨hne, hmem⟩ := h
    have hb : (k == a1) = false := beq_eq_false_iff_ne.mpr hne
    simpa [List.lookup, hb] using ih hmem

/-- Looking up a key present in the first part of an appended
association list ignores the second part. -/
theorem lookup_append_of_mem (k : String) (l l2 : List (String × FileVal))
    (h : k ∈ l.map Prod.fst) :
    List.lookup k (l ++ l2) = List.lookup k l := by
  induction l with
  | nil => simp at h
  | cons a t ih =>
    obtain ⟨a1, a2⟩ := a
    by_cases hk : k = a1
    · subst hk
      simp [List.lookup]
    · have hmem : k ∈ t.map Prod.fst := by
        simp only [List.map_cons, List.mem_cons] at h
        exact h.resolve_left hk
      have hb : (k == a1) = false := beq_eq_false_iff_ne.mpr hk
      simpa [List.lookup, hb] using ih hmem

/-- Claim C6: when the configured output key is not among the input
files, the run leaves every pre-existing key bound to its old value,
appends exactly the output key, bound to the serialized content of the
collected entries, and the iterated candidate set (the input key list)
never contains the generated key. -/
theorem runPlugin_frame (dp : String → Option Nat) (dr : Nat → String)
    (ser : String → List SitemapEntry → String) (m : String → String → Bool)
    (cfg : Config) (files : List (String × FileVal)) (statics : List StaticRecord)
    (h : cfg.output ∉ files.map Prod.fst) :
    (runPlugin dp dr ser m cfg files statics).map Prod.fst
        = files.map Prod.fst ++ [cfg.output]
    ∧ List.lookup cfg.output (runPlugin dp dr ser m cfg files statics)
        = some (FileVal.contents (ser cfg.hostname (entriesOf dp dr m cfg files statics)))
    ∧ ∀ k, k ∈ files.map Prod.fst →
        List.lookup k (runPlugin dp dr ser m cfg files statics) = List.lookup k files := by
  unfold runPlugin setKey
  rw [if_neg h]
  exact ⟨by simp, lookup_append_not_mem _ _ _ h,
    fun k hk => lookup_append_of_mem k files _ hk⟩

/-- Witness for claim C6 at a one-file build and the default output
key. -/
theorem runPlugin_frame_witness :
    (cfgBase.output ∉ ([("a.html", FileVal.meta {})] : List (String × FileVal)).map Prod.fst)
    ∧ ((runPlugin (fun _ => none) (fun _ => "") (fun _ _ => "xml") (fun _ _ => true)
          cfgBase [("a.html", FileVal.meta {})] []).map Prod.fst
        = ([("a.html", FileVal.meta {})] : List (String × FileVal)).map Prod.fst ++ [cfgBase.output]
      ∧ List.lookup cfgBase.output
          (runPlugin (fun _ => none) (fun _ => "") (fun _ _ => "xml") (fun _ _ => true)
            cfgBase [("a.html", FileVal.meta {})] [])
          = some (FileVal.contents "xml")
      ∧ ∀ k, k ∈ ([("a.html", FileVal.meta {})] : List (String × FileVal)).map Prod.fst →
          List.lookup k
            (runPlugin (fun _ => none) (fun _ => "") (fun _ _ => "xml") (fun _ _ => true)
              cfgBase [("a.html", FileVal.meta {})] [])
            = List.lookup k ([("a.html", FileVal.meta {})] : List (String × FileVal))) :=
  ⟨by decide, runPlugin_frame _ _ _ _ _ _ _ (by decide)⟩
